import Mathlib

/-!
Verification development for the functional test runner
(`src/scripts/functest.py` of monogram-project/re-classify).

The runner is shallowly embedded: pure Python string manipulation
(`str.format`, `str.strip`, `shlex.split`, `os.path.commonpath`,
`json.loads`/`json.dumps`) is translated into executable Lean functions;
operating-system effects (path canonicalization, PATH lookup, the current
working directory, subprocess execution, and the external lxml/yaml
renderers) are supplied by an explicit environment record, so that the
runner's control flow over those effects is modelled exactly.
Exceptional exits of Python functions are modelled with `Except`.
-/

namespace Functest

set_option autoImplicit false

/-- Left brace character, written via its code point. -/
def lbrace : Char := Char.ofNat 123

/-- Right brace character, written via its code point. -/
def rbrace : Char := Char.ofNat 125

/-- Double-quote character. -/
def dquote : Char := Char.ofNat 34

/-- Single-quote character. -/
def squote : Char := Char.ofNat 39

/-- The whitespace characters stripped by Python `str.strip()`
(ASCII range: space, tab, newline, carriage return, vertical tab, form feed). -/
def isPySpace (c : Char) : Bool :=
  c = ' ' || c = '\t' || c = '\n' || c = '\r' || c = Char.ofNat 11 || c = Char.ofNat 12

/-- Python `str.strip()`: remove leading and trailing whitespace. -/
def pyStrip (s : String) : String :=
  String.mk (((s.toList.dropWhile (fun c => isPySpace c)).reverse.dropWhile
    (fun c => isPySpace c)).reverse)

/-- `a.orElse b` on optional values, modelling `dict.get(key, default)`
where `a` is the stored value (if the key is present) and `b` the default. -/
def orElseOpt {α : Type} (a b : Option α) : Option α :=
  match a with
  | some x => some x
  | none => b

/-! ## Python `str.format` (named placeholders)

`template.format(key=val)` replaces every `\x7bkey\x7d` with `val`,
turns doubled braces into literal braces, and raises `KeyError` on any
other field name and `ValueError` on an unbalanced brace.  The model
covers plain named fields (no conversion or format-spec suffixes), which
is the fragment the runner's command templates use. -/

/-- A lexed template segment: a literal character or a named field. -/
inductive Seg where
  | lit (c : Char)
  | field (name : String)
deriving Repr, DecidableEq

/-- Lexer state for the template lexer: plain text, just after a left
brace, inside a field name (characters so far, reversed), or just after
a right brace. -/
inductive FSt where
  | txt
  | oneL
  | name (acc : List Char)
  | oneR
deriving Repr, DecidableEq

/-- The template lexer state machine: doubled braces become literal
braces, a single left brace opens a field name closed by a right brace,
and a lone right brace is an error, as in Python `str.format`. -/
def lexAux : FSt → List Char → Except String (List Seg)
  | FSt.txt, [] => Except.ok []
  | FSt.txt, c :: cs =>
    if c = lbrace then lexAux FSt.oneL cs
    else if c = rbrace then lexAux FSt.oneR cs
    else (lexAux FSt.txt cs).map (fun segs => Seg.lit c :: segs)
  | FSt.oneL, [] => Except.error "Single left brace encountered in format string"
  | FSt.oneL, c :: cs =>
    if c = lbrace then (lexAux FSt.txt cs).map (fun segs => Seg.lit lbrace :: segs)
    else if c = rbrace then (lexAux FSt.txt cs).map (fun segs => Seg.field "" :: segs)
    else lexAux (FSt.name [c]) cs
  | FSt.name _, [] => Except.error "expected closing brace before end of string"
  | FSt.name acc, c :: cs =>
    if c = rbrace then
      (lexAux FSt.txt cs).map (fun segs => Seg.field (String.mk acc.reverse) :: segs)
    else if c = lbrace then Except.error "unexpected left brace in field name"
    else lexAux (FSt.name (c :: acc)) cs
  | FSt.oneR, [] => Except.error "Single right brace encountered in format string"
  | FSt.oneR, c :: cs =>
    if c = rbrace then (lexAux FSt.txt cs).map (fun segs => Seg.lit rbrace :: segs)
    else Except.error "Single right brace encountered in format string"

/-- Lex a format template into literal characters and named fields,
failing on unbalanced braces as Python does. -/
def lexTemplate (cs : List Char) : Except String (List Seg) := lexAux FSt.txt cs

/-- Render lexed segments, substituting `val` for fields named `key`
and raising `KeyError` for any other field. -/
def renderSegs (key val : String) : List Seg → Except String String
  | [] => Except.ok ""
  | Seg.lit c :: rest => (renderSegs key val rest).map (fun t => String.mk [c] ++ t)
  | Seg.field nm :: rest =>
    if nm = key then (renderSegs key val rest).map (fun t => val ++ t)
    else Except.error ("KeyError: " ++ nm)

/-- Python `template.format(key=val)` restricted to one named keyword
argument (the only usage in the runner). -/
def pyFormat (tmpl key val : String) : Except String String :=
  (lexTemplate tmpl.toList).bind (fun segs => renderSegs key val segs)

/-! ## `shlex.split` (POSIX mode, whitespace splitting)

Models Python `shlex.split(command)`: words are split on the shlex
whitespace set, single quotes group literally, double quotes group with
backslash escaping only the double quote and the backslash, and a bare
backslash escapes the next character.  An unbalanced quote or a trailing
escape raises `ValueError`, modelled as `none`. -/

/-- The `shlex` whitespace characters. -/
def isShWs (c : Char) : Bool := c = ' ' || c = '\t' || c = '\r' || c = '\n'

/-- Lexer state for the shlex model. -/
inductive LexSt where
  | norm | esc | sq | dq | dqEsc
deriving Repr, DecidableEq

/-- The shlex state machine.  `tok` is the token built so far
(`none` when no token has started), `acc` the finished tokens. -/
def shlexAux : LexSt → List Char → Option String → List String → Option (List String)
  | LexSt.norm, [], tok, acc =>
    some (match tok with | some t => acc ++ [t] | none => acc)
  | LexSt.norm, c :: cs, tok, acc =>
    if isShWs c then
      match tok with
      | some t => shlexAux LexSt.norm cs none (acc ++ [t])
      | none => shlexAux LexSt.norm cs none acc
    else if c = squote then shlexAux LexSt.sq cs (some (tok.getD "")) acc
    else if c = dquote then shlexAux LexSt.dq cs (some (tok.getD "")) acc
    else if c = '\\' then shlexAux LexSt.esc cs tok acc
    else shlexAux LexSt.norm cs (some (tok.getD "" ++ String.mk [c])) acc
  | LexSt.esc, [], _, _ => none
  | LexSt.esc, c :: cs, tok, acc =>
    shlexAux LexSt.norm cs (some (tok.getD "" ++ String.mk [c])) acc
  | LexSt.sq, [], _, _ => none
  | LexSt.sq, c :: cs, tok, acc =>
    if c = squote then shlexAux LexSt.norm cs tok acc
    else shlexAux LexSt.sq cs (some (tok.getD "" ++ String.mk [c])) acc
  | LexSt.dq, [], _, _ => none
  | LexSt.dq, c :: cs, tok, acc =>
    if c = dquote then shlexAux LexSt.norm cs tok acc
    else if c = '\\' then shlexAux LexSt.dqEsc cs tok acc
    else shlexAux LexSt.dq cs (some (tok.getD "" ++ String.mk [c])) acc
  | LexSt.dqEsc, [], _, _ => none
  | LexSt.dqEsc, c :: cs, tok, acc =>
    if c = dquote || c = '\\' then
      shlexAux LexSt.dq cs (some (tok.getD "" ++ String.mk [c])) acc
    else shlexAux LexSt.dq cs (some (tok.getD "" ++ String.mk ['\\', c])) acc

/-- Python `shlex.split` (POSIX mode); `none` models a `ValueError`. -/
def shlexSplit (s : String) : Option (List String) :=
  shlexAux LexSt.norm s.toList none []

/-! ## `os.path` helpers (POSIX semantics) -/

/-- Python `os.path.isabs` on POSIX: the path starts with a slash. -/
def isAbsPath (s : String) : Bool := s.toList.head? = some '/'

/-- Split a path on slashes, as Python `str.split(sep)` does. -/
def splitSlash : List Char → List Char → List String
  | [], acc => [String.mk acc.reverse]
  | c :: rest, acc =>
    if c = '/' then String.mk acc.reverse :: splitSlash rest []
    else splitSlash rest (c :: acc)

/-- The non-empty, non-`.` path components used by `os.path.commonpath`. -/
def comps (p : String) : List String :=
  (splitSlash p.toList []).filter (fun c => ¬ (c = "" ∨ c = "."))

/-- The shared leading components of two component lists. -/
def commonLead : List String → List String → List String
  | a :: as2, b :: bs => if a = b then a :: commonLead as2 bs else []
  | _, _ => []

/-- Python `os.path.commonpath([p, q])` for two paths; `none` models the
`ValueError` raised when absolute and relative paths are mixed. -/
def commonpath2 (p q : String) : Option String :=
  if isAbsPath p ≠ isAbsPath q then none
  else
    some ((if isAbsPath p then "/" else "") ++
      String.intercalate "/" (commonLead (comps p) (comps q)))

/-! ## The environment

All operating-system and external-library effects the runner touches,
passed explicitly so that the runner's logic itself is a pure function. -/

/-- The ambient environment of one run: `which` is the PATH lookup,
`realpath` symlink-resolving canonicalization, `cwd` the working
directory, `run cmd input` the shell invocation returning
(exit status, stdout, stderr).  `xmlRender`/`yamlRender` model the
fallible external lxml and yaml round-trips used by the normalizers
(`none` models a raised exception), and `unifiedDiff` models
`difflib.unified_diff` joined with newlines. -/
structure Env where
  which : String → Option String
  realpath : String → String
  cwd : String
  run : String → String → Int × String × String
  xmlRender : String → Option String
  yamlRender : String → Option String
  unifiedDiff : String → String → String

/-- Resolution of the first command token to a canonical path:
absolute paths are canonicalized directly, other names are looked up on
the search path and then canonicalized. -/
def resolveExe (env : Env) (executable : String) : Option String :=
  if isAbsPath executable then some (env.realpath executable)
  else (env.which executable).map env.realpath

/-- The body of `is_command_valid` after tokenization: resolve the
first token and require that the common path of the resolved executable
and the canonical base path (the current working directory when no base
is given) equals the base path; every failure answers `false` with a
message. -/
def gateCore (env : Env) (toks : List String) (base_path : Option String) : Bool × String :=
  match toks with
  | [] => (false, "Empty command.")
  | executable :: _ =>
    match resolveExe env executable with
    | none => (false, "Could not resolve executable: " ++ executable)
    | some resolved =>
      let base := env.realpath (base_path.getD env.cwd)
      match commonpath2 resolved base with
      | none => (false, "Executable " ++ resolved ++ " is not under allowed path " ++ base)
      | some common =>
        if common ≠ base then
          (false, "Executable " ++ resolved ++ " is not under allowed path " ++ base)
        else (true, "")

/-- `is_command_valid(command, base_path)` from the source: shell-split
the command and gate it.  A shlex `ValueError` propagates (modelled as
`Except.error`); resolution and path-comparison failures return
`(false, message)`. -/
def is_command_valid (env : Env) (command : String) (base_path : Option String) :
    Except String (Bool × String) :=
  match shlexSplit command with
  | none => Except.error "No closing quotation"
  | some toks => Except.ok (gateCore env toks base_path)

/-! ## JSON (`json.loads` / `json.dumps(sort_keys=True, indent=2)`)

Model of the Python `json` library as used by `normalize_json`.
Scope of the model: integer numbers (no floats), string escapes other
than `\u`, and characters of the Basic Multilingual Plane; objects are
association lists built with dict semantics (a repeated key overwrites
its previous value). -/

/-- A JSON value as produced by `json.loads`. -/
inductive JValue where
  | null
  | bool (b : Bool)
  | int (n : Int)
  | str (s : String)
  | arr (xs : List JValue)
  | obj (kvs : List (String × JValue))
deriving Repr, Inhabited

/-- JSON insignificant whitespace. -/
def jskipWs (cs : List Char) : List Char :=
  cs.dropWhile (fun c => c = ' ' || c = '\t' || c = '\n' || c = '\r')

/-- Consume an expected literal. -/
def dropLit : List Char → List Char → Option (List Char)
  | [], cs => some cs
  | l :: ls, c :: cs => if c = l then dropLit ls cs else none
  | _ :: _, [] => none

/-- Decode a JSON string escape character (`\u` is outside the model). -/
def decodeEsc (c : Char) : Option Char :=
  if c = dquote then some dquote
  else if c = '\\' then some '\\'
  else if c = '/' then some '/'
  else if c = 'n' then some '\n'
  else if c = 't' then some '\t'
  else if c = 'r' then some '\r'
  else if c = 'b' then some (Char.ofNat 8)
  else if c = 'f' then some (Char.ofNat 12)
  else none

/-- Parse the body of a JSON string after the opening quote, returning
the decoded characters and the input after the closing quote. -/
def parseJStrBody : List Char → Option (List Char × List Char)
  | [] => none
  | c :: rest =>
    if c = dquote then some ([], rest)
    else if c = '\\' then
      match rest with
      | [] => none
      | e :: rest2 =>
        (decodeEsc e).bind (fun ch =>
          (parseJStrBody rest2).map (fun p => (ch :: p.1, p.2)))
    else if c.toNat < 32 then none
    else (parseJStrBody rest).map (fun p => (c :: p.1, p.2))

/-- Numeric value of a digit run. -/
def digitsVal (ds : List Char) : Nat :=
  ds.foldl (fun a c => a * 10 + (c.toNat - 48)) 0

/-- Parse a JSON integer (rejecting leading zeros and floats, which are
outside the model). -/
def parseIntJ (cs : List Char) : Option (Int × List Char) :=
  let (neg, cs1) := match cs with
    | c :: r => if c = '-' then (true, r) else (false, cs)
    | [] => (false, cs)
  match cs1 with
  | [] => none
  | c :: _ =>
    if ¬ c.isDigit then none
    else
      let ds := cs1.takeWhile Char.isDigit
      let rest := cs1.dropWhile Char.isDigit
      if ds.length > 1 ∧ ds.head? = some '0' then none
      else
        let v : Int := Int.ofNat (digitsVal ds)
        match rest with
        | [] => some ((if neg then -v else v), [])
        | p :: _ =>
          if p = '.' || p = 'e' || p = 'E' then none
          else some ((if neg then -v else v), rest)

/-- Insert into an association list with Python dict semantics: an
existing key keeps its position and gets the new value, a new key is
appended. -/
def dictInsert : List (String × JValue) → String → JValue → List (String × JValue)
  | [], k, v => [(k, v)]
  | (k1, v1) :: rest, k, v =>
    if k1 = k then (k1, v) :: rest else (k1, v1) :: dictInsert rest k v

mutual

/-- Fuel-indexed JSON value parser; the input is expected to start at a
non-whitespace character. -/
def parseJV : Nat → List Char → Option (JValue × List Char)
  | 0, _ => none
  | Nat.succ fuel, cs =>
    match cs with
    | [] => none
    | c :: rest =>
      if c = dquote then
        (parseJStrBody rest).map (fun p => (JValue.str (String.mk p.1), p.2))
      else if c = lbrace then
        match jskipWs rest with
        | [] => none
        | d :: rest2 =>
          if d = rbrace then some (JValue.obj [], rest2)
          else parseObjItems fuel [] (d :: rest2)
      else if c = '[' then
        match jskipWs rest with
        | [] => none
        | d :: rest2 =>
          if d = ']' then some (JValue.arr [], rest2)
          else parseArrItems fuel [] (d :: rest2)
      else if c = 'n' then (dropLit "ull".toList rest).map (fun r => (JValue.null, r))
      else if c = 't' then (dropLit "rue".toList rest).map (fun r => (JValue.bool true, r))
      else if c = 'f' then (dropLit "alse".toList rest).map (fun r => (JValue.bool false, r))
      else (parseIntJ cs).map (fun p => (JValue.int p.1, p.2))

/-- Parse the remaining items of a non-empty JSON array. -/
def parseArrItems : Nat → List JValue → List Char → Option (JValue × List Char)
  | 0, _, _ => none
  | Nat.succ fuel, acc, cs => do
    let (v, r1) ← parseJV fuel cs
    match jskipWs r1 with
    | [] => none
    | c :: r3 =>
      if c = ',' then parseArrItems fuel (acc ++ [v]) (jskipWs r3)
      else if c = ']' then some (JValue.arr (acc ++ [v]), r3)
      else none

/-- Parse the remaining members of a non-empty JSON object. -/
def parseObjItems : Nat → List (String × JValue) → List Char → Option (JValue × List Char)
  | 0, _, _ => none
  | Nat.succ fuel, acc, cs =>
    match cs with
    | [] => none
    | c :: r0 =>
      if c = dquote then do
        let (kcs, r1) ← parseJStrBody r0
        match jskipWs r1 with
        | [] => none
        | d :: r3 =>
          if d = ':' then do
            let (v, r4) ← parseJV fuel (jskipWs r3)
            match jskipWs r4 with
            | [] => none
            | e :: r6 =>
              if e = ',' then
                parseObjItems fuel (dictInsert acc (String.mk kcs) v) (jskipWs r6)
              else if e = rbrace then
                some (JValue.obj (dictInsert acc (String.mk kcs) v), r6)
              else none
          else none
      else none

end

/-- Python `json.loads`: parse a complete document, requiring only
whitespace after the value; `none` models a raised error. -/
def json_loads (s : String) : Option JValue :=
  match parseJV (s.length + 1) (jskipWs s.toList) with
  | some (v, rest) => if jskipWs rest = [] then some v else none
  | none => none

/-- A lowercase hexadecimal digit. -/
def hexDigit (n : Nat) : Char :=
  if n < 10 then Char.ofNat (48 + n) else Char.ofNat (87 + n)

/-- Four hexadecimal digits, as in a `\u` escape. -/
def hex4 (n : Nat) : List Char :=
  [hexDigit (n / 4096 % 16), hexDigit (n / 256 % 16), hexDigit (n / 16 % 16), hexDigit (n % 16)]

/-- Escape one character as `json.dumps` does with `ensure_ascii`
(characters outside printable ASCII become `\u` escapes). -/
def jescChar (c : Char) : List Char :=
  if c = dquote then ['\\', dquote]
  else if c = '\\' then ['\\', '\\']
  else if c = '\n' then ['\\', 'n']
  else if c = '\r' then ['\\', 'r']
  else if c = '\t' then ['\\', 't']
  else if c = Char.ofNat 8 then ['\\', 'b']
  else if c = Char.ofNat 12 then ['\\', 'f']
  else if 32 ≤ c.toNat ∧ c.toNat ≤ 126 then [c]
  else '\\' :: 'u' :: hex4 (c.toNat % 65536)

/-- Serialize a string with quotes and escapes. -/
def jq (s : String) : String :=
  String.mk (dquote :: s.toList.foldr (fun c acc => jescChar c ++ acc) [dquote])

/-- Indentation of `2 * lvl` spaces, matching `indent=2`. -/
def indentStr (lvl : Nat) : String := String.mk (List.replicate (2 * lvl) ' ')

/-- Python string `<`: lexicographic comparison of code points. -/
def strLt : List Char → List Char → Bool
  | [], [] => false
  | [], _ :: _ => true
  | _ :: _, [] => false
  | a :: as2, b :: bs =>
    if a.toNat < b.toNat then true
    else if b.toNat < a.toNat then false
    else strLt as2 bs

/-- Insert a key-value pair into a key-sorted association list, keeping
the order stable for equal keys (as Python `sorted` does). -/
def insPair (p : String × JValue) : List (String × JValue) → List (String × JValue)
  | [] => [p]
  | q :: rest =>
    if strLt q.1.toList p.1.toList then q :: insPair p rest else p :: q :: rest

/-- Stable insertion sort of object members by key, modelling the
`sort_keys=True` ordering of `json.dumps`. -/
def insKeySort : List (String × JValue) → List (String × JValue)
  | [] => []
  | p :: rest => insPair p (insKeySort rest)

mutual

/-- Recursively sort every object's members by key.  `json.dumps` with
`sort_keys=True` serializes exactly the canonicalized value. -/
def canonV : JValue → JValue
  | JValue.null => JValue.null
  | JValue.bool b => JValue.bool b
  | JValue.int n => JValue.int n
  | JValue.str s => JValue.str s
  | JValue.arr xs => JValue.arr (canonL xs)
  | JValue.obj kvs => JValue.obj (insKeySort (canonKVs kvs))
termination_by structural v => v

/-- `canonV` mapped over array elements. -/
def canonL : List JValue → List JValue
  | [] => []
  | x :: xs => canonV x :: canonL xs
termination_by structural l => l

/-- `canonV` mapped over object member values. -/
def canonKVs : List (String × JValue) → List (String × JValue)
  | [] => []
  | (k, v) :: rest => (k, canonV v) :: canonKVs rest
termination_by structural l => l

end

mutual

/-- Serialize a value at indentation level `lvl`, in the layout
`json.dumps(obj, indent=2)` produces. -/
def dumpV (lvl : Nat) : JValue → String
  | JValue.null => "null"
  | JValue.bool true => "true"
  | JValue.bool false => "false"
  | JValue.int n => toString n
  | JValue.str s => jq s
  | JValue.arr [] => "[]"
  | JValue.arr (x :: xs) =>
    "[\n" ++ dumpItems (lvl + 1) x xs ++ "\n" ++ indentStr lvl ++ "]"
  | JValue.obj [] => String.mk [lbrace, rbrace]
  | JValue.obj ((k, v) :: ps) =>
    String.mk [lbrace] ++ "\n" ++ dumpPairs (lvl + 1) k v ps ++ "\n" ++
      indentStr lvl ++ String.mk [rbrace]
termination_by v => sizeOf v
decreasing_by all_goals (simp; try omega)

/-- Serialize array items, one per line. -/
def dumpItems (lvl : Nat) (x : JValue) : List JValue → String
  | [] => indentStr lvl ++ dumpV lvl x
  | y :: ys => indentStr lvl ++ dumpV lvl x ++ ",\n" ++ dumpItems lvl y ys
termination_by ys => sizeOf x + sizeOf ys
decreasing_by all_goals (simp; try omega)

/-- Serialize object members, one per line. -/
def dumpPairs (lvl : Nat) (k : String) (v : JValue) : List (String × JValue) → String
  | [] => indentStr lvl ++ jq k ++ ": " ++ dumpV lvl v
  | (k2, v2) :: qs =>
    indentStr lvl ++ jq k ++ ": " ++ dumpV lvl v ++ ",\n" ++ dumpPairs lvl k2 v2 qs
termination_by qs => sizeOf v + sizeOf qs
decreasing_by all_goals (simp; try omega)

end

/-- Python `json.dumps(obj, sort_keys=True, indent=2)`: serialize the
key-canonicalized value. -/
def json_dumps (v : JValue) : String := dumpV 0 (canonV v)

/-- Two parsed JSON texts denote the same JSON value exactly when their
key-canonicalized forms coincide (objects compared as finite maps). -/
def sameJsonValue (v w : JValue) : Prop := canonV v = canonV w

/-! ## Normalizers -/

/-- `normalize_json` from the source: load and re-dump; on any parse
error return the original text unchanged. -/
def normalize_json (s : String) : String :=
  match json_loads s with
  | some v => json_dumps v
  | none => s

/-- `normalize_xml` from the source: the parse/canonicalize/pretty-print
pipeline (external lxml calls, supplied by the environment) followed by
`str.strip()`; on any exception return the original text unchanged. -/
def normalize_xml (env : Env) (s : String) : String :=
  match env.xmlRender s with
  | some t => pyStrip t
  | none => s

/-- `normalize_yaml` from the source: safe-load and re-dump via the
external yaml library (supplied by the environment); on any exception
return the original text unchanged. -/
def normalize_yaml (env : Env) (s : String) : String :=
  match env.yamlRender s with
  | some t => t
  | none => s

/-- The `normalization_functions` dictionary lookup with default
`None`: keys `xml`, `json` and `yaml` map to the normalizers, anything
else (including an absent key) to no normalization. -/
def normalization_functions (env : Env) : Option String → Option (String → String)
  | some "xml" => some (normalize_xml env)
  | some "json" => some normalize_json
  | some "yaml" => some (normalize_yaml env)
  | _ => none

/-- Apply an optional normalization function, as the
`if normalization_func is not None` block does. -/
def applyNorm (nf : Option (String → String)) (s : String) : String :=
  match nf with
  | some f => f s
  | none => s

/-! ## Test Executor (`Main.run_test`) -/

/-- A test entry from a YAML source.  `none` fields model absent keys;
`command` is required. -/
structure TestCase where
  name : Option String
  command : String
  input : Option String
  expected_output : Option String
  expected_exit_status : Option Int
  normalize : Option String
deriving Repr, DecidableEq

/-- The five-tuple `run_test` returns:
`(name, passed, actual_output, expected_output, stderr_text)`. -/
structure Verdict where
  name : String
  passed : Bool
  actualOutput : String
  expectedOutput : String
  stderrText : String
deriving Repr, DecidableEq

/-- The run options the runner consumes. -/
structure Args where
  command : String
  check_on_path : Option String
  quiet : Bool
deriving Repr, DecidableEq

/-- The resolved command string:
`test["command"].format(command=...).format(count=tcount)` —
substitute the `command` placeholder, then the `count` placeholder, each
`format` call raising on any placeholder it cannot resolve. -/
def resolveCommand (tmpl argsCommand : String) (tcount : Nat) : Except String String :=
  (pyFormat tmpl "command" argsCommand).bind
    (fun s => pyFormat s "count" (toString tcount))

/-- The body of `run_test` after the command string has been resolved
and the gate has answered: short-circuit on a gate rejection, run the
subprocess, fail on an exit-status mismatch, otherwise normalize both
outputs and compare them after stripping. -/
def judge (env : Env) (test : TestCase) (default_normalize : Option String)
    (command : String) (vr : Bool × String) : Verdict :=
  let name := test.name.getD "<unnamed>"
  let input := test.input.getD ""
  let expected_output := test.expected_output.getD ""
  let expected_exit_status := test.expected_exit_status.getD 0
  let nf := normalization_functions env (orElseOpt test.normalize default_normalize)
  if vr.1 then
    let r := env.run command input
    if r.1 ≠ expected_exit_status then
      ⟨name, false, "EXIT STATUS " ++ toString r.1,
        "EXPECTED STATUS " ++ toString expected_exit_status, r.2.2⟩
    else
      let actual := applyNorm nf r.2.1
      let expected := applyNorm nf expected_output
      ⟨name, pyStrip actual == pyStrip expected, actual, expected, r.2.2⟩
  else
    ⟨name, false, "COMMAND ERROR: " ++ vr.2, expected_output, ""⟩

/-- The part of `run_test` following command resolution: gate the
command, then judge the invocation. -/
def execResolved (env : Env) (test : TestCase) (default_normalize : Option String)
    (check_path : Option String) (command : String) : Except String Verdict :=
  (is_command_valid env command check_path).bind
    (fun vr => Except.ok (judge env test default_normalize command vr))

/-- `Main.run_test` from the source.  An uncaught Python exception
(format `KeyError`/`ValueError`, shlex `ValueError`) is an
`Except.error`. -/
def run_test (env : Env) (argsCommand : String) (tcount : Nat) (test : TestCase)
    (default_normalize : Option String) (check_path : Option String) :
    Except String Verdict :=
  (pyFormat test.command "command" argsCommand).bind (fun s1 =>
    (pyFormat s1 "count" (toString tcount)).bind (fun command =>
      (is_command_valid env command check_path).bind (fun vr =>
        Except.ok (judge env test default_normalize command vr))))

/-! ## Reporter and Loader (`Main.run_single_test`, `Main.main`) -/

/-- The output stream a printed line goes to. -/
inductive Fd where
  | out
  | err
deriving Repr, DecidableEq

/-- One printed line: the stream it is written to and its text. -/
abbrev Event := Fd × String

/-- The separator line `"-" * 40`. -/
def sepLine : String := String.mk (List.replicate 40 '-')

/-- The lines `run_single_test` prints for one verdict.  In the source
every one of these `print` calls writes to standard output; only the
loader diagnostics in `main` pass `file=sys.stderr`. -/
def reportEvents (env : Env) (args : Args) (v : Verdict) : List Event :=
  if v.passed then
    (if args.quiet then [] else [(Fd.out, "PASS: " ++ v.name)])
  else
    [(Fd.out, "FAIL: " ++ v.name), (Fd.out, "Expected:"), (Fd.out, v.expectedOutput),
     (Fd.out, "Actual:"), (Fd.out, v.actualOutput), (Fd.out, "Diff:"),
     (Fd.out, env.unifiedDiff v.expectedOutput v.actualOutput)] ++
    (if v.stderrText = "" then [] else [(Fd.out, "Error output:"), (Fd.out, v.stderrText)]) ++
    [(Fd.out, sepLine)]

/-- `Main.run_single_test`: run one test and print its result,
returning whether it passed. -/
def run_single_test (env : Env) (args : Args) (tcount : Nat)
    (default_normalize : Option String) (test : TestCase) :
    Except String (Bool × List Event) :=
  (run_test env args.command tcount test default_normalize args.check_on_path).bind
    (fun v => Except.ok (v.passed, reportEvents env args v))

/-- A parsed YAML test file: its top-level `normalize` key and its
`tests` list. -/
structure SourceData where
  normalize : Option String
  tests : List TestCase
deriving Repr, DecidableEq

/-- The loading loop of `Main.main` over `(filename, parse result)`
sources: a read/parse error prints a diagnostic to the error stream and
aborts the whole run at once (`none`); a source with no tests prints a
warning to the error stream and contributes nothing; otherwise the
source's `(default_normalize, test)` pairs are prepended in order. -/
def loadLoop : List (String × Except String SourceData) →
    List Event × Option (List (Option String × TestCase))
  | [] => ([], some [])
  | (fname, Except.error e) :: _ =>
    ([(Fd.err, "Error reading " ++ fname ++ ": " ++ e)], none)
  | (fname, Except.ok d) :: rest =>
    if d.tests.isEmpty then
      let (evs, r) := loadLoop rest
      ((Fd.err, "No tests found in " ++ fname ++ "!") :: evs, r)
    else
      let (evs, r) := loadLoop rest
      (evs, r.map (fun ts => d.tests.map (fun t => (d.normalize, t)) ++ ts))

/-- The test loop of `Main.main`: run the entries in order, the entry at
position `i` of the concatenation with sequence index `i`, accumulating
`(total, passed_count, printed lines)`. -/
def runLoop (env : Env) (args : Args) :
    Nat → List (Option String × TestCase) → Except String (Nat × Nat × List Event)
  | _, [] => Except.ok (0, 0, [])
  | i, e :: es =>
    (run_single_test env args i e.1 e.2).bind (fun pr =>
      (runLoop env args (i + 1) es).bind (fun tpe =>
        Except.ok (tpe.1 + 1, tpe.2.1 + (if pr.1 then 1 else 0), pr.2 ++ tpe.2.2)))

/-- The result of a completed `Main.main`: the `sys.exit` code, the
totals, and every line printed with its stream. -/
structure MainResult where
  exitCode : Nat
  total : Nat
  passedCount : Nat
  events : List Event
deriving Repr, DecidableEq

/-- `Main.main` from the source: load all sources (fatal on the first
read/parse error), abort when no tests were found at all, otherwise run
every test in sequence and exit 0 exactly when every test passed. -/
def mainRun (env : Env) (args : Args)
    (sources : List (String × Except String SourceData)) : Except String MainResult :=
  match loadLoop sources with
  | (evs, none) => Except.ok ⟨1, 0, 0, evs⟩
  | (evs, some allTests) =>
    if allTests = [] then
      Except.ok ⟨1, 0, 0, evs ++ [(Fd.err, "No valid tests found in the provided YAML files!")]⟩
    else
      (runLoop env args 0 allTests).bind (fun tpe =>
        Except.ok ⟨if tpe.2.1 = tpe.1 then 0 else 1, tpe.1, tpe.2.1,
          evs ++ tpe.2.2 ++
            [(Fd.out, "\nSummary: " ++ toString tpe.2.1 ++ " out of " ++
              toString tpe.1 ++ " tests passed.")]⟩)

/-! ## A concrete demonstration environment

Used by the closed witness theorems: `echo` lives under `/w`, which is
also the working directory, and `echo hi` prints `hi`. -/

/-- A small concrete environment for evaluating the model. -/
def demoEnv : Env where
  which := fun s => if s = "echo" then some "/w/echo" else none
  realpath := fun s => s
  cwd := "/w"
  run := fun c _ => if c = "echo hi" then (0, "hi\n", "") else (1, "", "boom")
  xmlRender := fun _ => none
  yamlRender := fun _ => none
  unifiedDiff := fun _ _ => ""

/-- Default run options: `--command monogram`, no gate path, not quiet. -/
def demoArgs : Args := ⟨"monogram", none, false⟩

/-- The echo scenario's test case:
`name: echo, command: echo hi, expected_output: "hi\n"`. -/
def echoCase : TestCase := ⟨some "echo", "echo hi", none, some "hi\n", none, none⟩

/-- A failing test case: `echo hi` against expected output `nope`. -/
def failCase : TestCase := ⟨some "bad", "echo hi", none, some "nope", none, none⟩

/-! ## General lemmas about the model (shared helpers) -/

/-- `run_test` decomposes as command resolution followed by the
post-resolution body. -/
theorem run_test_as_bind (env : Env) (a : String) (n : Nat) (test : TestCase)
    (dn cp : Option String) :
    run_test env a n test dn cp =
      (resolveCommand test.command a n).bind (execResolved env test dn cp) := by
  unfold run_test resolveCommand execResolved
  cases pyFormat test.command "command" a with
  | error e => rfl
  | ok s1 => rfl

/-- In any successful `runLoop` result the passed count is bounded by
the total. -/
theorem runLoop_passed_le (env : Env) (args : Args) :
    ∀ (l : List (Option String × TestCase)) (i t p : Nat) (evs : List Event),
      runLoop env args i l = Except.ok (t, p, evs) → p ≤ t := by
  intro l
  induction l with
  | nil =>
    intro i t p evs h
    simp only [runLoop, Except.ok.injEq, Prod.mk.injEq] at h
    omega
  | cons x xs ih =>
    intro i t p evs h
    simp only [runLoop] at h
    cases h1 : run_single_test env args i x.1 x.2 with
    | error e => rw [h1] at h; simp [Except.bind] at h
    | ok pr =>
      rw [h1] at h
      cases h2 : runLoop env args (i + 1) xs with
      | error e => rw [h2] at h; simp [Except.bind] at h
      | ok tpe =>
        rw [h2] at h
        simp only [Except.bind, Except.ok.injEq, Prod.mk.injEq] at h
        have hle := ih (i + 1) tpe.1 tpe.2.1 tpe.2.2 (by rw [h2])
        obtain ⟨ht, hp, _⟩ := h
        subst ht; subst hp
        split <;> omega

/-! ## The claims -/

/-- C3: for every test case the executed command string is obtained
from the case's command template by substituting the named placeholder
`command` with the configured executable first, and then substituting
the named placeholder `count` with the case's sequence index
(`resolveCommand` is by definition the chained `format` calls, each of
which errors on any placeholder it cannot resolve); an error in either
substitution propagates out of `run_test` unchanged. -/
theorem command_substitution_spec (env : Env) (a : String) (n : Nat) (test : TestCase)
    (dn cp : Option String) :
    run_test env a n test dn cp =
      ((pyFormat test.command "command" a).bind
        (fun s => pyFormat s "count" (toString n))).bind (execResolved env test dn cp) ∧
    (∀ e, resolveCommand test.command a n = Except.error e →
      run_test env a n test dn cp = Except.error e) := by
  constructor
  · exact run_test_as_bind env a n test dn cp
  · intro e he
    rw [run_test_as_bind, he]
    rfl

/-- Closed instance of C3: a template with an unresolvable placeholder
makes the run error with the `KeyError`, and a plain template runs. -/
theorem command_substitution_spec_witness :
    run_test demoEnv "monogram" 0 ⟨none, String.mk [lbrace] ++ "bogus" ++ String.mk [rbrace],
        none, none, none, none⟩ none none = Except.error "KeyError: bogus" :=
  (command_substitution_spec demoEnv "monogram" 0
      ⟨none, String.mk [lbrace] ++ "bogus" ++ String.mk [rbrace], none, none, none, none⟩
      none none).2 "KeyError: bogus" rfl

/-- C7: for each recognized format key (`xml`, `json`, `yaml`), on any
input text whose parse fails the normalizer returns the original text
unchanged; the normalizers are total Lean functions, so no exception
reaches the caller. -/
theorem normalize_fallback_identity (env : Env) (s : String) :
    (env.xmlRender s = none → normalize_xml env s = s) ∧
    (json_loads s = none → normalize_json s = s) ∧
    (env.yamlRender s = none → normalize_yaml env s = s) := by
  refine ⟨fun h => ?_, fun h => ?_, fun h => ?_⟩
  · simp [normalize_xml, h]
  · simp [normalize_json, h]
  · simp [normalize_yaml, h]

/-- Closed instance of C7 at a concretely malformed text. -/
theorem normalize_fallback_identity_witness :
    normalize_xml demoEnv "nope" = "nope" ∧ normalize_json "nope" = "nope" ∧
      normalize_yaml demoEnv "nope" = "nope" :=
  ⟨(normalize_fallback_identity demoEnv "nope").1 rfl,
   (normalize_fallback_identity demoEnv "nope").2.1 rfl,
   (normalize_fallback_identity demoEnv "nope").2.2 rfl⟩

/-- C9: two valid JSON texts denoting the same JSON value (equal after
recursively sorting object keys, i.e. differing only in whitespace or
key order) normalize to the same string; `normalize_json` re-serializes
with keys sorted and two-space indentation by definition of
`json_dumps`. -/
theorem normalize_json_key_order_invariant (t1 t2 : String) (v1 v2 : JValue)
    (h1 : json_loads t1 = some v1) (h2 : json_loads t2 = some v2)
    (h : sameJsonValue v1 v2) :
    normalize_json t1 = normalize_json t2 := by
  unfold normalize_json
  rw [h1, h2]
  show json_dumps v1 = json_dumps v2
  unfold json_dumps
  unfold sameJsonValue at h
  rw [h]

/-- Closed instance of C9: the same object written with different
whitespace and key order normalizes identically. -/
theorem normalize_json_key_order_invariant_witness :
    json_loads "\x7b \"b\" : 1, \"a\" : 2 \x7d" =
        some (JValue.obj [("b", JValue.int 1), ("a", JValue.int 2)]) ∧
    json_loads "\x7b\"a\":2,\"b\":1\x7d" =
        some (JValue.obj [("a", JValue.int 2), ("b", JValue.int 1)]) ∧
    normalize_json "\x7b \"b\" : 1, \"a\" : 2 \x7d" = normalize_json "\x7b\"a\":2,\"b\":1\x7d" :=
  ⟨rfl, rfl,
    normalize_json_key_order_invariant _ _
      (JValue.obj [("b", JValue.int 1), ("a", JValue.int 2)])
      (JValue.obj [("a", JValue.int 2), ("b", JValue.int 1)]) rfl rfl rfl⟩

/-- C1: for every executed test case whose gate validation succeeds,
the verdict's `passed` field is true exactly when the subprocess exit
status equals the expected exit status and the captured stdout and the
expected output — both normalized when an effective normalization key
applies, raw otherwise — are equal after stripping surrounding
whitespace. -/
theorem run_test_passed_iff (env : Env) (a : String) (n : Nat) (test : TestCase)
    (dn cp : Option String) (cmd : String)
    (hcmd : resolveCommand test.command a n = Except.ok cmd)
    (hvalid : is_command_valid env cmd cp = Except.ok (true, "")) :
    ∃ v, run_test env a n test dn cp = Except.ok v ∧
      (v.passed = true ↔
        ((env.run cmd (test.input.getD "")).1 = test.expected_exit_status.getD 0 ∧
          pyStrip (applyNorm (normalization_functions env (orElseOpt test.normalize dn))
              (env.run cmd (test.input.getD "")).2.1) =
            pyStrip (applyNorm (normalization_functions env (orElseOpt test.normalize dn))
              (test.expected_output.getD "")))) := by
  refine ⟨judge env test dn cmd (true, ""), ?_, ?_⟩
  · rw [run_test_as_bind, hcmd]
    show execResolved env test dn cp cmd = _
    unfold execResolved
    rw [hvalid]
    rfl
  · by_cases hc :
      (env.run cmd (test.input.getD "")).1 = test.expected_exit_status.getD 0
    · simp [judge, hc]
    · simp [judge, hc]

/-- Closed instance of C1 at the echo test in the demonstration
environment. -/
theorem run_test_passed_iff_witness :
    run_test demoEnv "monogram" 0 echoCase none none =
      Except.ok ⟨"echo", true, "hi\n", "hi\n", ""⟩ ∧
    ((⟨"echo", true, "hi\n", "hi\n", ""⟩ : Verdict).passed = true ↔
      ((demoEnv.run "echo hi" "").1 = 0 ∧
        pyStrip (applyNorm (normalization_functions demoEnv (orElseOpt none none))
            (demoEnv.run "echo hi" "").2.1) =
          pyStrip (applyNorm (normalization_functions demoEnv (orElseOpt none none))
            "hi\n"))) := by
  obtain ⟨v, hv, hiff⟩ :=
    run_test_passed_iff demoEnv "monogram" 0 echoCase none none "echo hi" rfl rfl
  have hveq : v = ⟨"echo", true, "hi\n", "hi\n", ""⟩ := by
    have h2 : Except.ok v = Except.ok (⟨"echo", true, "hi\n", "hi\n", ""⟩ : Verdict) :=
      hv.symm.trans rfl
    injection h2
  subst hveq
  exact ⟨hv, hiff⟩

/-- C4: when the gate succeeds but the subprocess exit status differs
from the expected one, the verdict is exactly the failing tuple carrying
`EXIT STATUS n` and `EXPECTED STATUS m` and the raw captured stderr:
no normalization and no output-text comparison enter the result. -/
theorem exit_status_mismatch_verdict (env : Env) (a : String) (n : Nat) (test : TestCase)
    (dn cp : Option String) (cmd : String)
    (hcmd : resolveCommand test.command a n = Except.ok cmd)
    (hvalid : is_command_valid env cmd cp = Except.ok (true, ""))
    (hcode : (env.run cmd (test.input.getD "")).1 ≠ test.expected_exit_status.getD 0) :
    run_test env a n test dn cp = Except.ok
      ⟨test.name.getD "<unnamed>", false,
        "EXIT STATUS " ++ toString (env.run cmd (test.input.getD "")).1,
        "EXPECTED STATUS " ++ toString (test.expected_exit_status.getD 0),
        (env.run cmd (test.input.getD "")).2.2⟩ := by
  rw [run_test_as_bind, hcmd]
  show execResolved env test dn cp cmd = _
  unfold execResolved
  rw [hvalid]
  show Except.ok (judge env test dn cmd (true, "")) = _
  simp [judge, hcode]

/-- Closed instance of C4: expecting exit status 1 from a command that
exits 0 yields exactly the status-mismatch verdict. -/
theorem exit_status_mismatch_verdict_witness :
    run_test demoEnv "monogram" 0
        ⟨some "bad", "echo hi", none, some "hi\n", some 1, none⟩ none none = Except.ok
      ⟨"bad", false, "EXIT STATUS 0", "EXPECTED STATUS 1", ""⟩ :=
  exit_status_mismatch_verdict demoEnv "monogram" 0
    ⟨some "bad", "echo hi", none, some "hi\n", some 1, none⟩ none none "echo hi" rfl rfl
    (by decide)

/-- C5: for every tokenizable command string and base path, the gate
answers `ok = true` exactly when the first shell token resolves to a
canonical path whose common path with the canonicalized allowed base
path (the current working directory when no base is given) equals that
base path; every failure — empty command, unresolvable executable, or
path comparison failing (including the `commonpath` `ValueError`, which
is caught) — answers `false` together with a descriptive message. -/
theorem executable_gate_spec (env : Env) (command : String) (base_path : Option String)
    (toks : List String) (htoks : shlexSplit command = some toks) :
    (is_command_valid env command base_path = Except.ok (true, "") ↔
      ∃ exe resolved, toks.head? = some exe ∧ resolveExe env exe = some resolved ∧
        commonpath2 resolved (env.realpath (base_path.getD env.cwd)) =
          some (env.realpath (base_path.getD env.cwd))) ∧
    (toks = [] →
      is_command_valid env command base_path = Except.ok (false, "Empty command.")) ∧
    (∀ exe rest, toks = exe :: rest → resolveExe env exe = none →
      is_command_valid env command base_path =
        Except.ok (false, "Could not resolve executable: " ++ exe)) ∧
    (∀ exe rest resolved, toks = exe :: rest → resolveExe env exe = some resolved →
      commonpath2 resolved (env.realpath (base_path.getD env.cwd)) ≠
        some (env.realpath (base_path.getD env.cwd)) →
      is_command_valid env command base_path =
        Except.ok (false, "Executable " ++ resolved ++ " is not under allowed path " ++
          env.realpath (base_path.getD env.cwd))) := by
  have hicv : is_command_valid env command base_path =
      Except.ok (gateCore env toks base_path) := by
    unfold is_command_valid
    rw [htoks]
  rw [hicv]
  cases toks with
  | nil =>
    refine ⟨?_, fun _ => rfl, ?_, ?_⟩
    · simp [gateCore]
    · intro exe rest hh; simp at hh
    · intro exe rest resolved hh; simp at hh
  | cons exe0 rest0 =>
    cases hres : resolveExe env exe0 with
    | none =>
      refine ⟨?_, ?_, ?_, ?_⟩
      · constructor
        · intro h
          simp [gateCore, hres] at h
        · rintro ⟨exe, resolved, hh, hr, _⟩
          simp only [List.head?] at hh
          injection hh with hh
          subst hh
          rw [hres] at hr
          simp at hr
      · intro hnil; simp at hnil
      · intro exe rest heq _
        injection heq with h1 h2
        subst h1
        simp [gateCore, hres]
      · intro exe rest resolved heq hrs _
        injection heq with h1 h2
        subst h1
        rw [hres] at hrs
        simp at hrs
    | some res =>
      cases hcp : commonpath2 res (env.realpath (base_path.getD env.cwd)) with
      | none =>
        refine ⟨?_, ?_, ?_, ?_⟩
        · constructor
          · intro h
            simp [gateCore, hres, hcp] at h
          · rintro ⟨exe, resolved, hh, hr, hc⟩
            simp only [List.head?] at hh
            injection hh with hh
            subst hh
            rw [hres] at hr
            injection hr with hr
            subst hr
            rw [hcp] at hc
            simp at hc
        · intro hnil; simp at hnil
        · intro exe rest heq hrn
          injection heq with h1 h2
          subst h1
          rw [hres] at hrn
          simp at hrn
        · intro exe rest resolved heq hrs _
          injection heq with h1 h2
          subst h1
          rw [hres] at hrs
          injection hrs with hrs
          subst hrs
          simp [gateCore, hres, hcp]
      | some common =>
        by_cases hcb : common = env.realpath (base_path.getD env.cwd)
        · refine ⟨?_, ?_, ?_, ?_⟩
          · constructor
            · intro _
              exact ⟨exe0, res, rfl, hres, by rw [hcp, hcb]⟩
            · intro _
              simp [gateCore, hres, hcp, hcb]
          · intro hnil; simp at hnil
          · intro exe rest heq hrn
            injection heq with h1 h2
            subst h1
            rw [hres] at hrn
            simp at hrn
          · intro exe rest resolved heq hrs hc
            injection heq with h1 h2
            subst h1
            rw [hres] at hrs
            injection hrs with hrs
            subst hrs
            rw [hcp, hcb] at hc
            simp at hc
        · refine ⟨?_, ?_, ?_, ?_⟩
          · constructor
            · intro h
              simp [gateCore, hres, hcp, hcb] at h
            · rintro ⟨exe, resolved, hh, hr, hc⟩
              simp only [List.head?] at hh
              injection hh with hh
              subst hh
              rw [hres] at hr
              injection hr with hr
              subst hr
              rw [hcp] at hc
              injection hc with hc
              exact (hcb hc).elim
          · intro hnil; simp at hnil
          · intro exe rest heq hrn
            injection heq with h1 h2
            subst h1
            rw [hres] at hrn
            simp at hrn
          · intro exe rest resolved heq hrs _
            injection heq with h1 h2
            subst h1
            rw [hres] at hrs
            injection hrs with hrs
            subst hrs
            simp [gateCore, hres, hcp, hcb]

/-- Closed instance of C5: in the demonstration environment `echo hi`
resolves to `/w/echo`, which is under the allowed base `/w`. -/
theorem executable_gate_spec_witness :
    is_command_valid demoEnv "echo hi" (some "/w") = Except.ok (true, "") :=
  (executable_gate_spec demoEnv "echo hi" (some "/w") ["echo", "hi"] rfl).1.mpr
    ⟨"echo", "/w/echo", rfl, rfl, rfl⟩

/-- C2: for any completed run (loading succeeded with a non-empty case
list) the process exit code is 0 exactly when every case passed
(`passedCount = total`), the passed count never exceeds the total, and
a load error or an empty combined case list forces exit code 1. -/
theorem main_exit_code_spec (env : Env) (args : Args)
    (sources : List (String × Except String SourceData)) (r : MainResult)
    (h : mainRun env args sources = Except.ok r) :
    r.passedCount ≤ r.total ∧
    ((loadLoop sources).2 = none → r.exitCode = 1) ∧
    ((loadLoop sources).2 = some [] → r.exitCode = 1) ∧
    (∀ l, (loadLoop sources).2 = some l → l ≠ [] →
      (r.exitCode = 0 ↔ r.passedCount = r.total)) := by
  cases hl : loadLoop sources with
  | mk evs o =>
    unfold mainRun at h
    rw [hl] at h
    cases o with
    | none =>
      have hr : r = ⟨1, 0, 0, evs⟩ := by
        have h2 : Except.ok (⟨1, 0, 0, evs⟩ : MainResult) = Except.ok r := h
        injection h2 with h2
        exact h2.symm
      subst hr
      refine ⟨Nat.le_refl 0, fun _ => rfl, fun _ => rfl, ?_⟩
      intro l hsome _
      simp at hsome
    | some l0 =>
      by_cases he : l0 = []
      · subst he
        have hr : r = ⟨1, 0, 0,
            evs ++ [(Fd.err, "No valid tests found in the provided YAML files!")]⟩ := by
          have h2 : Except.ok (⟨1, 0, 0,
              evs ++ [(Fd.err, "No valid tests found in the provided YAML files!")]⟩ :
                MainResult) = Except.ok r := h
          injection h2 with h2
          exact h2.symm
        subst hr
        refine ⟨Nat.le_refl 0, fun _ => rfl, fun _ => rfl, ?_⟩
        intro l hsome hne
        have hle : l = [] := by simpa using hsome.symm
        exact (hne hle).elim
      · have h2 : (if l0 = [] then
            Except.ok (⟨1, 0, 0,
              evs ++ [(Fd.err, "No valid tests found in the provided YAML files!")]⟩ :
                MainResult)
          else
            (runLoop env args 0 l0).bind (fun tpe =>
              Except.ok (⟨if tpe.2.1 = tpe.1 then 0 else 1, tpe.1, tpe.2.1,
                evs ++ tpe.2.2 ++
                  [(Fd.out, "\nSummary: " ++ toString tpe.2.1 ++ " out of " ++
                    toString tpe.1 ++ " tests passed.")]⟩ : MainResult))) = Except.ok r := h
        rw [if_neg he] at h2
        cases hrl : runLoop env args 0 l0 with
        | error e =>
          rw [hrl] at h2
          simp [Except.bind] at h2
        | ok tpe =>
          rw [hrl] at h2
          simp only [Except.bind, Except.ok.injEq] at h2
          have hle := runLoop_passed_le env args l0 0 tpe.1 tpe.2.1 tpe.2.2 (by rw [hrl])
          refine ⟨?_, ?_, ?_, ?_⟩
          · rw [← h2]
            exact hle
          · intro hnone
            simp at hnone
          · intro hsome
            have hle2 : l0 = [] := by simpa using hsome
            exact (he hle2).elim
          · intro l _ _
            rw [← h2]
            by_cases hpt : tpe.2.1 = tpe.1
            · simp [hpt]
            · simp [hpt]

/-- Closed instance of C2 at the passing echo scenario: one passed out
of one total, and exit code 0 exactly because passed equals total. -/
theorem main_exit_code_spec_witness :
    (MainResult.mk 0 1 1
        [(Fd.out, "PASS: echo"), (Fd.out, "\nSummary: 1 out of 1 tests passed.")]).passedCount ≤
      (MainResult.mk 0 1 1
        [(Fd.out, "PASS: echo"), (Fd.out, "\nSummary: 1 out of 1 tests passed.")]).total ∧
    ((MainResult.mk 0 1 1
        [(Fd.out, "PASS: echo"), (Fd.out, "\nSummary: 1 out of 1 tests passed.")]).exitCode = 0 ↔
      (MainResult.mk 0 1 1
        [(Fd.out, "PASS: echo"), (Fd.out, "\nSummary: 1 out of 1 tests passed.")]).passedCount =
        (MainResult.mk 0 1 1
          [(Fd.out, "PASS: echo"), (Fd.out, "\nSummary: 1 out of 1 tests passed.")]).total) :=
  ⟨(main_exit_code_spec demoEnv demoArgs [("tests.yaml", Except.ok ⟨none, [echoCase]⟩)]
      ⟨0, 1, 1, [(Fd.out, "PASS: echo"),
        (Fd.out, "\nSummary: 1 out of 1 tests passed.")]⟩ rfl).1,
   (main_exit_code_spec demoEnv demoArgs [("tests.yaml", Except.ok ⟨none, [echoCase]⟩)]
      ⟨0, 1, 1, [(Fd.out, "PASS: echo"),
        (Fd.out, "\nSummary: 1 out of 1 tests passed.")]⟩ rfl).2.2.2
     [(none, echoCase)] rfl (by simp)⟩

/-- C8: loading is fatal-on-error and tolerant-of-empty: a source whose
read/parse fails aborts the run at once with only its diagnostic and
exit code 1 (later sources are not touched, no tests run); a source
with zero cases emits a warning and contributes no entries while
loading continues; the combined case list concatenates sources in order
(each source's cases in order); an empty combined list is fatal with
exit code 1; and the run loop numbers the concatenation 0..N-1 (entry
`i` executes with sequence index `i`). -/
theorem loader_aggregation_spec :
    (∀ (env : Env) (args : Args) (fname e : String)
        (rest : List (String × Except String SourceData)),
      mainRun env args ((fname, Except.error e) :: rest) =
        Except.ok ⟨1, 0, 0, [(Fd.err, "Error reading " ++ fname ++ ": " ++ e)]⟩) ∧
    (∀ (fname : String) (dn : Option String)
        (rest : List (String × Except String SourceData)),
      loadLoop ((fname, Except.ok ⟨dn, []⟩) :: rest) =
        ((Fd.err, "No tests found in " ++ fname ++ "!") :: (loadLoop rest).1,
          (loadLoop rest).2)) ∧
    (∀ (fname : String) (dn : Option String) (ts : List TestCase)
        (rest : List (String × Except String SourceData)), ts ≠ [] →
      loadLoop ((fname, Except.ok ⟨dn, ts⟩) :: rest) =
        ((loadLoop rest).1,
          ((loadLoop rest).2).map (fun acc => ts.map (fun t => (dn, t)) ++ acc))) ∧
    (∀ (env : Env) (args : Args) (sources : List (String × Except String SourceData))
        (evs : List Event), loadLoop sources = (evs, some []) →
      mainRun env args sources = Except.ok ⟨1, 0, 0,
        evs ++ [(Fd.err, "No valid tests found in the provided YAML files!")]⟩) ∧
    (∀ (env : Env) (args : Args) (i : Nat) (x : Option String × TestCase)
        (xs : List (Option String × TestCase)),
      runLoop env args i (x :: xs) =
        (run_single_test env args i x.1 x.2).bind (fun pr =>
          (runLoop env args (i + 1) xs).bind (fun tpe =>
            Except.ok (tpe.1 + 1, tpe.2.1 + (if pr.1 then 1 else 0), pr.2 ++ tpe.2.2)))) := by
  refine ⟨fun env args fname e rest => rfl, ?_, ?_, ?_, fun env args i x xs => rfl⟩
  · intro fname dn rest
    cases hlr : loadLoop rest with
    | mk evs r => simp [loadLoop, hlr]
  · intro fname dn ts rest hne
    cases ts with
    | nil => exact (hne rfl).elim
    | cons t ts2 =>
      cases hlr : loadLoop rest with
      | mk evs r => simp [loadLoop, hlr]
  · intro env args sources evs h
    unfold mainRun
    rw [h]
    rfl

/-- Closed instance of C8: a failing source aborts with its diagnostic,
an empty source warns and contributes nothing, and an all-empty run is
fatal. -/
theorem loader_aggregation_spec_witness :
    mainRun demoEnv demoArgs [("bad.yaml", Except.error "boom"),
        ("tests.yaml", Except.ok ⟨none, [echoCase]⟩)] =
      Except.ok ⟨1, 0, 0, [(Fd.err, "Error reading bad.yaml: boom")]⟩ ∧
    loadLoop [("empty.yaml", Except.ok ⟨none, []⟩),
        ("tests.yaml", Except.ok ⟨none, [echoCase]⟩)] =
      ([(Fd.err, "No tests found in empty.yaml!")], some [(none, echoCase)]) ∧
    mainRun demoEnv demoArgs [("empty.yaml", Except.ok ⟨none, []⟩)] =
      Except.ok ⟨1, 0, 0, [(Fd.err, "No tests found in empty.yaml!"),
        (Fd.err, "No valid tests found in the provided YAML files!")]⟩ := by
  refine ⟨loader_aggregation_spec.1 demoEnv demoArgs "bad.yaml" "boom" _, ?_, ?_⟩
  · rw [loader_aggregation_spec.2.1 "empty.yaml" none
      [("tests.yaml", Except.ok ⟨none, [echoCase]⟩)]]
    rfl
  · exact loader_aggregation_spec.2.2.2.1 demoEnv demoArgs
      [("empty.yaml", Except.ok ⟨none, []⟩)]
      [(Fd.err, "No tests found in empty.yaml!")] rfl

/-- C10: a run over one source holding exactly the test
`name: echo, command: echo hi, expected_output: "hi\n"`, in any
environment where the gate admits `echo hi` and the command prints
`hi` and exits 0, reports 1 total, 1 passed and exits with code 0. -/
theorem single_echo_scenario (env : Env)
    (hgate : is_command_valid env "echo hi" none = Except.ok (true, ""))
    (hrun : env.run "echo hi" "" = (0, "hi\n", "")) :
    mainRun env demoArgs [("tests.yaml", Except.ok ⟨none, [echoCase]⟩)] =
      Except.ok ⟨0, 1, 1,
        [(Fd.out, "PASS: echo"), (Fd.out, "\nSummary: 1 out of 1 tests passed.")]⟩ := by
  have hgate2 : gateCore env ["echo", "hi"] none = (true, "") := by
    have heq : is_command_valid env "echo hi" none =
        Except.ok (gateCore env ["echo", "hi"] none) := rfl
    rw [heq] at hgate
    injection hgate
  have hj : judge env echoCase none "echo hi" (true, "") =
      ⟨"echo", true, "hi\n", "hi\n", ""⟩ := by
    simp [judge, hrun, echoCase, normalization_functions, orElseOpt, applyNorm]
  have hrt : run_test env "monogram" 0 echoCase none none =
      Except.ok ⟨"echo", true, "hi\n", "hi\n", ""⟩ := by
    show Except.ok (judge env echoCase none "echo hi" (gateCore env ["echo", "hi"] none)) = _
    rw [hgate2, hj]
  have hsingle : run_single_test env demoArgs 0 none echoCase =
      Except.ok (true, [(Fd.out, "PASS: echo")]) := by
    show (run_test env "monogram" 0 echoCase none none).bind _ = _
    rw [hrt]
    rfl
  have hloop : runLoop env demoArgs 0 [(none, echoCase)] =
      Except.ok (1, 1, [(Fd.out, "PASS: echo")]) := by
    have hstep : runLoop env demoArgs 0 [(none, echoCase)] =
        (run_single_test env demoArgs 0 none echoCase).bind (fun pr =>
          (runLoop env demoArgs 1 []).bind (fun tpe =>
            Except.ok (tpe.1 + 1, tpe.2.1 + (if pr.1 then 1 else 0), pr.2 ++ tpe.2.2))) := rfl
    rw [hstep, hsingle]
    rfl
  have hmain : mainRun env demoArgs [("tests.yaml", Except.ok ⟨none, [echoCase]⟩)] =
      (runLoop env demoArgs 0 [(none, echoCase)]).bind (fun tpe =>
        Except.ok ⟨if tpe.2.1 = tpe.1 then 0 else 1, tpe.1, tpe.2.1,
          [] ++ tpe.2.2 ++ [(Fd.out, "\nSummary: " ++ toString tpe.2.1 ++ " out of " ++
            toString tpe.1 ++ " tests passed.")]⟩) := rfl
  rw [hmain, hloop]
  rfl

/-- Closed instance of C10 in the demonstration environment. -/
theorem single_echo_scenario_witness :
    mainRun demoEnv demoArgs [("tests.yaml", Except.ok ⟨none, [echoCase]⟩)] =
      Except.ok ⟨0, 1, 1,
        [(Fd.out, "PASS: echo"), (Fd.out, "\nSummary: 1 out of 1 tests passed.")]⟩ :=
  single_echo_scenario demoEnv rfl rfl

/-- C6 fails on the code: the per-case failure lines (`FAIL:`,
expected/actual text, diff, separator) are printed with plain `print`,
i.e. to the standard output stream, not to the error stream the spec
(and the script's own docstring) promise; here a failing case produces
every one of its diagnostic lines on `Fd.out`. -/
theorem fail_diagnostics_on_stdout :
    mainRun demoEnv demoArgs [("t.yaml", Except.ok ⟨none, [failCase]⟩)] =
      Except.ok ⟨1, 1, 0,
        [(Fd.out, "FAIL: bad"), (Fd.out, "Expected:"), (Fd.out, "nope"),
         (Fd.out, "Actual:"), (Fd.out, "hi\n"), (Fd.out, "Diff:"), (Fd.out, ""),
         (Fd.out, sepLine), (Fd.out, "\nSummary: 0 out of 1 tests passed.")]⟩ := by
  rfl

end Functest
